import Mathlib

/-!
Shallow embedding of `src/Learn/Train.py` (EXP-DeerVision-Unity).

The file has two pieces of logic:

* `RewardDebugCallback._on_step`: a stable-baselines3 callback that watches the
  per-step `infos` metadata, appends episode reward/length to two lists when an
  `episode` marker is present, and prints a rolling average of the last 10
  episodes whenever the reward list's length is a multiple of 10.  Embedded as
  the pure function `onStep` below (state passed explicitly; Python exceptions
  become an `Except` outcome; real numbers become `ℚ`).

* The top-level driver: builds the env, loads the model from `MODEL_PATH` if the
  file exists (else constructs a fresh PPO with fixed hyperparameters), calls
  `model.learn` inside `try/except KeyboardInterrupt/finally`, and saves the
  model in the `finally` block.  Embedded as `runDriver`, which maps the
  externally-determined facts (file existence, how `learn` ends) to the ordered
  trace of driver events plus a normal-exit flag.
-/

/-- The value of an `info_dict['episode']` marker: Python dict with optional
keys `r` (cumulative reward) and `l` (episode length).  Both are `Option` so
that a malformed marker (missing key, `KeyError` in Python) is representable. -/
structure EpisodeInfo where
  r : Option ℚ
  l : Option ℚ
deriving DecidableEq

/-- One entry of the `infos` batch: a step-metadata dict that may carry an
`episode` completion marker.  Other keys of the dict are never consulted by the
callback and are not modelled. -/
structure Info where
  episode : Option EpisodeInfo
deriving DecidableEq

/-- The Python dict literal `{}` used in `self.locals.get('infos', [{}])`. -/
def emptyInfo : Info := ⟨none⟩

/-- The callback's mutable state: `self.episode_rewards` and
`self.episode_lengths`, both initialised to `[]` in `__init__`. -/
structure CallbackState where
  episode_rewards : List ℚ
  episode_lengths : List ℚ
deriving DecidableEq

/-- State right after `RewardDebugCallback.__init__`. -/
def initState : CallbackState := ⟨[], []⟩

/-- The exceptions `_on_step` can raise: `IndexError` from `[...][0]` on an
empty list, `KeyError` from `episode_info['r']` / `episode_info['l']`. -/
inductive StepError where
  | indexError
  | keyError
deriving DecidableEq

/-- Python slice `xs[-n:]`: the last `n` elements (all of `xs` when it is
shorter).  `List.drop (xs.length - n)` matches exactly, `Nat` subtraction
truncating at 0 just as Python clamps the negative start index. -/
def sliceFromEnd (n : Nat) (xs : List ℚ) : List ℚ :=
  xs.drop (xs.length - n)

/-- `np.mean xs` on a list of exact numbers: sum divided by length.  The
callback only ever applies it to nonempty slices. -/
def npMean (xs : List ℚ) : ℚ :=
  xs.sum / (xs.length : ℚ)

/-- `RewardDebugCallback._on_step`, embedded.

Input `infos` is `self.locals['infos']` when the key is present (`none` when
absent, in which case `.get` supplies the default `[{}]`).  Result:
the state after the call (unchanged whenever an exception is raised, since in
the source both `episode_info['r']` and `episode_info['l']` are read before
either `append`), the printed rolling averages (`some (avg_reward, avg_length)`
iff the debug line was printed), and either the returned `True` or the raised
exception.

Note on line 27 of the source: `self.locals['infos'][0]['episode']` re-reads
the key without the default, but it is guarded by line 26, which can only
succeed when `'infos'` is present (the default `{}` has no `'episode'` key), so
collapsing both reads into one match is faithful. -/
def onStep (infos : Option (List Info)) (s : CallbackState) :
    CallbackState × Option (ℚ × ℚ) × Except StepError Bool :=
  match infos.getD [emptyInfo] with
  | [] => (s, none, Except.error StepError.indexError)
  | info0 :: _ =>
    match info0.episode with
    | none => (s, none, Except.ok true)
    | some episode_info =>
      match episode_info.r with
      | none => (s, none, Except.error StepError.keyError)
      | some episode_reward =>
        match episode_info.l with
        | none => (s, none, Except.error StepError.keyError)
        | some episode_length =>
          let s1 : CallbackState :=
            ⟨s.episode_rewards ++ [episode_reward],
             s.episode_lengths ++ [episode_length]⟩
          if s1.episode_rewards.length % 10 = 0 then
            (s1,
             some (npMean (sliceFromEnd 10 s1.episode_rewards),
                   npMean (sliceFromEnd 10 s1.episode_lengths)),
             Except.ok true)
          else
            (s1, none, Except.ok true)

/-- Run a sequence of `_on_step` notifications in order, threading the state,
collecting each call's printed output, and stopping at the first raised
exception (which in the source would propagate out of the training loop).
Returns the final state, the per-call printed outputs, and the first error if
any. -/
def runSteps (inputs : List (Option (List Info))) (s : CallbackState) :
    CallbackState × List (Option (ℚ × ℚ)) × Option StepError :=
  match inputs with
  | [] => (s, [], none)
  | i :: rest =>
    match onStep i s with
    | (s1, pr, Except.error e) => (s1, [pr], some e)
    | (s1, pr, Except.ok _) =>
      let r := runSteps rest s1
      (r.1, pr :: r.2.1, r.2.2)

/-- The `(r, l)` payload effectively read from index 0 of the infos batch, when
present and well-formed. -/
def markerOf (infos : Option (List Info)) : Option (ℚ × ℚ) :=
  match infos.getD [emptyInfo] with
  | [] => none
  | info0 :: _ =>
    match info0.episode with
    | none => none
    | some episode_info =>
      match episode_info.r, episode_info.l with
      | some r, some l => some (r, l)
      | _, _ => none

/-- Whether index 0 of the (defaulted) infos batch carries an `episode` key. -/
def carriesMarker (infos : Option (List Info)) : Bool :=
  match infos.getD [emptyInfo] with
  | [] => false
  | info0 :: _ => info0.episode.isSome

/-- A well-formed `_on_step` input: either the `'infos'` key is absent, or the
batch is nonempty and its index-0 entry, if it carries an `episode` marker,
has both the `r` and the `l` field. -/
def WellFormedInfos (infos : Option (List Info)) : Prop :=
  match infos with
  | none => True
  | some [] => False
  | some (info0 :: _) =>
    ∀ ep, info0.episode = some ep → ep.r.isSome ∧ ep.l.isSome

/-- An input whose index-0 entry carries a well-formed marker `(r, l)`. -/
def markerInput (r l : ℚ) : Option (List Info) :=
  some [⟨some ⟨some r, some l⟩⟩]

/-- An input whose index-0 entry carries no marker. -/
def plainInput : Option (List Info) :=
  some [emptyInfo]

/-- A batch of marker inputs, each with the given reward and length 10
(the shape used by the spec's concrete test traces). -/
def inputsOf (rs : List ℚ) : List (Option (List Info)) :=
  rs.map fun r => markerInput r 10

/-! ## Driver model (lines 75-116 of `Train.py`)

`MODEL_PATH = os.path.join("ppo_deeragentrl.zip")`; the script then loads the
model if the file exists (else constructs a fresh `PPO` with the literal
hyperparameters), prints a three-line start banner, and runs
`model.learn(total_timesteps=..., ...)` inside
`try: ... except KeyboardInterrupt: print(...) finally: model.save(MODEL_PATH); print(...)`.
The filesystem and the `learn` call are external; `runDriver` maps the two
external facts (does the file exist; how does `learn` end) to the ordered
trace of driver actions plus a flag telling whether the process exits
normally (`false` when an uncaught exception propagates out of `finally`). -/

/-- The literal hyperparameters of the fresh `PPO(...)` construction. -/
structure PPOParams where
  policy : String
  verbose : Nat
  n_steps : Nat
  batch_size : Nat
  learning_rate : ℚ
  max_grad_norm : ℚ
  ent_coef : ℚ
  gamma : ℚ
  gae_lambda : ℚ
deriving DecidableEq

/-- The argument list of `PPO("MultiInputPolicy", vec_env, verbose=1, ...)`. -/
def freshPPOParams : PPOParams :=
  ⟨"MultiInputPolicy", 1, 2048, 256, 1 / 1000, 1, 1 / 1000, 9 / 10, 95 / 100⟩

/-- `MODEL_PATH`: `os.path.join` on a single component is that component. -/
def MODEL_PATH : String := "ppo_deeragentrl.zip"

/-- `total_timesteps = 200_000`. -/
def total_timesteps : Nat := 200000

/-- How the `model.learn(...)` call ends: normal return, a
`KeyboardInterrupt` raised by the operator, or any other exception. -/
inductive LearnOutcome where
  | completes
  | keyboardInterrupt
  | otherError
deriving DecidableEq

/-- Observable actions of the driver script, in program order. -/
inductive DriverEvent where
  | printLoadNotice (path : String)
  | loadModel (path : String)
  | printCreateNotice
  | constructFresh (hp : PPOParams)
  | printStartBanner
  | learnCall (timesteps : Nat)
  | printInterruptNotice
  | saveModel (path : String)
  | printSaveNotice (path : String)
deriving DecidableEq

/-- The driver's trace of events and whether the process exits normally.

* `if os.path.exists(MODEL_PATH): model = PPO.load(MODEL_PATH, ...)` else a
  fresh `PPO(...)` — selected only by `modelFileExists`;
* the start banner (three prints, collapsed into one event);
* `model.learn(...)` inside the `try`;
* on `KeyboardInterrupt` the `except` clause prints the interrupt notice;
* the `finally` clause always runs `model.save(MODEL_PATH)` and the save
  notice; after it, a `KeyboardInterrupt` is swallowed (normal exit) while
  any other exception propagates (abnormal exit). -/
def runDriver (modelFileExists : Bool) (outcome : LearnOutcome) :
    List DriverEvent × Bool :=
  let loadOrCreate :=
    if modelFileExists then
      [DriverEvent.printLoadNotice MODEL_PATH, DriverEvent.loadModel MODEL_PATH]
    else
      [DriverEvent.printCreateNotice, DriverEvent.constructFresh freshPPOParams]
  let beforeTry := loadOrCreate ++
    [DriverEvent.printStartBanner, DriverEvent.learnCall total_timesteps]
  let finallyEvents :=
    [DriverEvent.saveModel MODEL_PATH, DriverEvent.printSaveNotice MODEL_PATH]
  match outcome with
  | LearnOutcome.completes => (beforeTry ++ finallyEvents, true)
  | LearnOutcome.keyboardInterrupt =>
      (beforeTry ++ DriverEvent.printInterruptNotice :: finallyEvents, true)
  | LearnOutcome.otherError => (beforeTry ++ finallyEvents, false)

/-- Recognises a model-save action in a driver trace. -/
def isSaveEvent : DriverEvent → Bool
  | DriverEvent.saveModel _ => true
  | _ => false

/-- Recognises a model-load action in a driver trace. -/
def isLoadEvent : DriverEvent → Bool
  | DriverEvent.loadModel _ => true
  | _ => false

/-- Recognises a fresh-model construction in a driver trace. -/
def isConstructEvent : DriverEvent → Bool
  | DriverEvent.constructFresh _ => true
  | _ => false

/-- A reachable state with nine completed episodes, all with reward and
length 0 (used to exercise the tenth-episode print concretely). -/
def nineZeros : CallbackState := ⟨List.replicate 9 0, List.replicate 9 0⟩

/-! ## Helper lemmas: evaluation of `onStep` on each source branch -/

/-- `'infos'` absent: the default `[{}]` carries no marker, so nothing
happens. -/
theorem onStep_none (s : CallbackState) :
    onStep none s = (s, none, Except.ok true) := rfl

/-- `'infos'` present but empty: `[0]` raises IndexError. -/
theorem onStep_nil (s : CallbackState) :
    onStep (some []) s = (s, none, Except.error StepError.indexError) := rfl

/-- Index-0 entry without an `episode` key: no-op returning True. -/
theorem onStep_noMarker (info0 : Info) (rest : List Info) (s : CallbackState)
    (hep : info0.episode = none) :
    onStep (some (info0 :: rest)) s = (s, none, Except.ok true) := by
  simp [onStep, hep]

/-- Marker without an `r` field: KeyError before any append. -/
theorem onStep_missingR (info0 : Info) (rest : List Info) (s : CallbackState)
    (ep : EpisodeInfo) (hep : info0.episode = some ep) (hr : ep.r = none) :
    onStep (some (info0 :: rest)) s =
      (s, none, Except.error StepError.keyError) := by
  simp [onStep, hep, hr]

/-- Marker with an `r` field but no `l` field: KeyError before any append. -/
theorem onStep_missingL (info0 : Info) (rest : List Info) (s : CallbackState)
    (ep : EpisodeInfo) (r : ℚ) (hep : info0.episode = some ep)
    (hr : ep.r = some r) (hl : ep.l = none) :
    onStep (some (info0 :: rest)) s =
      (s, none, Except.error StepError.keyError) := by
  simp [onStep, hep, hr, hl]

/-- Well-formed marker: both values are appended, the debug line is printed
exactly when the new reward-history length is divisible by 10, and True is
returned. -/
theorem onStep_marker (info0 : Info) (rest : List Info) (s : CallbackState)
    (ep : EpisodeInfo) (r l : ℚ) (hep : info0.episode = some ep)
    (hr : ep.r = some r) (hl : ep.l = some l) :
    onStep (some (info0 :: rest)) s =
      (⟨s.episode_rewards ++ [r], s.episode_lengths ++ [l]⟩,
       if (s.episode_rewards ++ [r]).length % 10 = 0 then
         some (npMean (sliceFromEnd 10 (s.episode_rewards ++ [r])),
               npMean (sliceFromEnd 10 (s.episode_lengths ++ [l])))
       else none,
       Except.ok true) := by
  simp [onStep, hep, hr, hl]
  split <;> simp_all

/-- A successful `_on_step` call either leaves the state unchanged (no marker
at index 0) or appends exactly the marker's reward and length. -/
theorem onStep_ok_effect (i : Option (List Info)) (s s1 : CallbackState)
    (pr : Option (ℚ × ℚ)) (b : Bool)
    (h : onStep i s = (s1, pr, Except.ok b)) :
    (markerOf i = none ∧ carriesMarker i = false ∧ s1 = s) ∨
    (∃ r l, markerOf i = some (r, l) ∧ carriesMarker i = true ∧
      s1 = ⟨s.episode_rewards ++ [r], s.episode_lengths ++ [l]⟩) := by
  rcases i with _ | (_ | ⟨info0, rest⟩)
  · rw [onStep_none] at h
    simp only [Prod.mk.injEq] at h
    rcases h with ⟨rfl, -, -⟩
    exact Or.inl ⟨rfl, rfl, rfl⟩
  · rw [onStep_nil] at h
    simp at h
  · rcases hep : info0.episode with _ | ep
    · rw [onStep_noMarker _ _ _ hep] at h
      simp only [Prod.mk.injEq] at h
      rcases h with ⟨rfl, -, -⟩
      exact Or.inl ⟨by simp [markerOf, hep], by simp [carriesMarker, hep], rfl⟩
    · rcases hr : ep.r with _ | r
      · rw [onStep_missingR _ _ _ _ hep hr] at h
        simp at h
      · rcases hl : ep.l with _ | l
        · rw [onStep_missingL _ _ _ _ _ hep hr hl] at h
          simp at h
        · rw [onStep_marker _ _ _ _ _ _ hep hr hl] at h
          simp only [Prod.mk.injEq] at h
          rcases h with ⟨rfl, -, -⟩
          exact Or.inr ⟨r, l, by simp [markerOf, hep, hr, hl],
            by simp [carriesMarker, hep], rfl⟩

/-- A successful run of `_on_step` notifications appends exactly the markers'
rewards and lengths, in order; the number of marker-carrying notifications
equals the number of extracted markers. -/
theorem runSteps_ok_spec (inputs : List (Option (List Info))) (s s' : CallbackState)
    (prs : List (Option (ℚ × ℚ))) (h : runSteps inputs s = (s', prs, none)) :
    s'.episode_rewards =
      s.episode_rewards ++ (inputs.filterMap markerOf).map Prod.fst ∧
    s'.episode_lengths =
      s.episode_lengths ++ (inputs.filterMap markerOf).map Prod.snd ∧
    inputs.countP carriesMarker = (inputs.filterMap markerOf).length := by
  induction inputs generalizing s s' prs with
  | nil =>
    simp only [runSteps, Prod.mk.injEq] at h
    rcases h with ⟨rfl, -, -⟩
    simp
  | cons i rest ih =>
    rcases hstep : onStep i s with ⟨s1, pr, exc⟩
    rcases exc with e | b
    · simp [runSteps, hstep] at h
    · rcases hrest : runSteps rest s1 with ⟨s2, prs2, err2⟩
      simp only [runSteps, hstep, hrest, Prod.mk.injEq] at h
      rcases h with ⟨rfl, -, rfl⟩
      obtain ⟨ih1, ih2, ih3⟩ := ih s1 s2 prs2 hrest
      rcases onStep_ok_effect i s s1 pr b hstep with
        ⟨hm, hc, hss⟩ | ⟨r, l, hm, hc, hss⟩
      · subst hss
        simp [List.filterMap_cons, hm, List.countP_cons, hc, ih1, ih2, ih3]
      · subst hss
        simp [ih1, ih2, List.filterMap_cons, hm, List.countP_cons, hc, ih3,
          List.append_assoc]

/-- Whenever `_on_step` prints, the printed pair is the mean over exactly the
last 10 entries of each (just-extended) history, provided the two histories
have equal length before the call. -/
theorem onStep_printed_means (infos : Option (List Info)) (s : CallbackState)
    (mr ml : ℚ) (hlen : s.episode_rewards.length = s.episode_lengths.length)
    (hpr : (onStep infos s).2.1 = some (mr, ml)) :
    (sliceFromEnd 10 (onStep infos s).1.episode_rewards).length = 10 ∧
    (sliceFromEnd 10 (onStep infos s).1.episode_lengths).length = 10 ∧
    mr = (sliceFromEnd 10 (onStep infos s).1.episode_rewards).sum / 10 ∧
    ml = (sliceFromEnd 10 (onStep infos s).1.episode_lengths).sum / 10 := by
  rcases infos with _ | (_ | ⟨info0, rest⟩)
  · rw [onStep_none] at hpr
    simp at hpr
  · rw [onStep_nil] at hpr
    simp at hpr
  · rcases hep : info0.episode with _ | ep
    · rw [onStep_noMarker _ _ _ hep] at hpr
      simp at hpr
    · rcases hr : ep.r with _ | r
      · rw [onStep_missingR _ _ _ _ hep hr] at hpr
        simp at hpr
      · rcases hl : ep.l with _ | l
        · rw [onStep_missingL _ _ _ _ _ hep hr hl] at hpr
          simp at hpr
        · rw [onStep_marker _ _ _ _ _ _ hep hr hl] at hpr
          by_cases hmod : (s.episode_rewards ++ [r]).length % 10 = 0
          · rw [if_pos hmod] at hpr
            simp only [Option.some.injEq, Prod.mk.injEq] at hpr
            obtain ⟨hmr, hml⟩ := hpr
            have hmod' : (s.episode_rewards.length + 1) % 10 = 0 := by
              have h10 := hmod
              simp only [List.length_append, List.length_singleton] at h10
              omega
            have hlr : (sliceFromEnd 10 (s.episode_rewards ++ [r])).length = 10 := by
              simp only [sliceFromEnd, List.length_drop, List.length_append,
                List.length_singleton]
              omega
            have hll : (sliceFromEnd 10 (s.episode_lengths ++ [l])).length = 10 := by
              simp only [sliceFromEnd, List.length_drop, List.length_append,
                List.length_singleton]
              omega
            have hmr' : mr = (sliceFromEnd 10 (s.episode_rewards ++ [r])).sum / 10 := by
              rw [← hmr]
              simp only [npMean, hlr]
              norm_num
            have hml' : ml = (sliceFromEnd 10 (s.episode_lengths ++ [l])).sum / 10 := by
              rw [← hml]
              simp only [npMean, hll]
              norm_num
            rw [onStep_marker _ _ _ _ _ _ hep hr hl]
            exact ⟨hlr, hll, hmr', hml'⟩
          · rw [if_neg hmod] at hpr
            exact absurd hpr (by simp)

/-! ## The claims -/

/-- C1: a progress line is printed by a notification if and only if that
notification appended an episode outcome (the reward history grew by one) and
the resulting reward-history length is a positive multiple of 10; a
notification that appends nothing never prints. -/
theorem claim_C1 (infos : Option (List Info)) (s : CallbackState) :
    (onStep infos s).2.1.isSome = true ↔
      ((onStep infos s).1.episode_rewards.length = s.episode_rewards.length + 1 ∧
        0 < (onStep infos s).1.episode_rewards.length ∧
        (onStep infos s).1.episode_rewards.length % 10 = 0) := by
  rcases infos with _ | (_ | ⟨info0, rest⟩)
  · rw [onStep_none]
    simp
  · rw [onStep_nil]
    simp
  · rcases hep : info0.episode with _ | ep
    · rw [onStep_noMarker _ _ _ hep]
      simp
    · rcases hr : ep.r with _ | r
      · rw [onStep_missingR _ _ _ _ hep hr]
        simp
      · rcases hl : ep.l with _ | l
        · rw [onStep_missingL _ _ _ _ _ hep hr hl]
          simp
        · rw [onStep_marker _ _ _ _ _ _ hep hr hl]
          have happ : (s.episode_rewards ++ [r]).length =
              s.episode_rewards.length + 1 := by simp
          by_cases hmod : (s.episode_rewards.length + 1) % 10 = 0
          · simp [happ, hmod]
          · simp [happ, hmod]

/-- C2: whenever a progress line is emitted, the reported means are the
arithmetic means (sum divided by 10) of exactly the last 10 entries of each
history; concretely, with rewards 1..15 (lengths all 10) the only line is the
one after episode 10 with reward mean 5.5 and length mean 10, and with
rewards 1..20 the second line reports 15.5 — the mean of entries 11..20 only,
not the full-history mean. -/
theorem claim_C2 :
    (∀ infos s mr ml,
        s.episode_rewards.length = s.episode_lengths.length →
        (onStep infos s).2.1 = some (mr, ml) →
        (sliceFromEnd 10 (onStep infos s).1.episode_rewards).length = 10 ∧
        (sliceFromEnd 10 (onStep infos s).1.episode_lengths).length = 10 ∧
        mr = (sliceFromEnd 10 (onStep infos s).1.episode_rewards).sum / 10 ∧
        ml = (sliceFromEnd 10 (onStep infos s).1.episode_lengths).sum / 10) ∧
    (runSteps (inputsOf [1, 2, 3, 4, 5, 6, 7, 8, 9, 10, 11, 12, 13, 14, 15])
        initState).2.1 =
      [none, none, none, none, none, none, none, none, none,
        some (11 / 2, 10), none, none, none, none, none] ∧
    (runSteps (inputsOf [1, 2, 3, 4, 5, 6, 7, 8, 9, 10, 11, 12, 13, 14, 15,
        16, 17, 18, 19, 20]) initState).2.1 =
      [none, none, none, none, none, none, none, none, none,
        some (11 / 2, 10), none, none, none, none, none, none, none, none,
        none, some (31 / 2, 10)] ∧
    (31 / 2 : ℚ) = npMean [11, 12, 13, 14, 15, 16, 17, 18, 19, 20] ∧
    npMean (runSteps (inputsOf [1, 2, 3, 4, 5, 6, 7, 8, 9, 10, 11, 12, 13, 14,
        15, 16, 17, 18, 19, 20]) initState).1.episode_rewards ≠ (31 / 2 : ℚ) := by
  refine ⟨onStep_printed_means, ?_, ?_, ?_, ?_⟩
  · simp [runSteps, onStep, inputsOf, markerInput, initState, npMean,
      sliceFromEnd, emptyInfo]
    norm_num
  · simp [runSteps, onStep, inputsOf, markerInput, initState, npMean,
      sliceFromEnd, emptyInfo]
    norm_num
  · norm_num [npMean]
  · simp [runSteps, onStep, inputsOf, markerInput, initState, npMean,
      sliceFromEnd, emptyInfo]
    norm_num

/-- C2 witness: at the concrete state with nine zero episodes, a zero marker
triggers a print and the reported means are the last-10 means. -/
theorem claim_C2_witness :
    (sliceFromEnd 10 (onStep (markerInput 0 0) nineZeros).1.episode_rewards).length = 10 ∧
    (sliceFromEnd 10 (onStep (markerInput 0 0) nineZeros).1.episode_lengths).length = 10 ∧
    (0 : ℚ) = (sliceFromEnd 10 (onStep (markerInput 0 0) nineZeros).1.episode_rewards).sum / 10 ∧
    (0 : ℚ) = (sliceFromEnd 10 (onStep (markerInput 0 0) nineZeros).1.episode_lengths).sum / 10 :=
  claim_C2.1 (markerInput 0 0) nineZeros 0 0 (by simp [nineZeros])
    (by norm_num [onStep, markerInput, nineZeros, npMean, sliceFromEnd])

/-- C3: a notification whose index-0 metadata carries no episode marker leaves
the state unchanged, prints nothing and returns True. -/
theorem claim_C3 (info0 : Info) (rest : List Info) (s : CallbackState)
    (h : info0.episode = none) :
    onStep (some (info0 :: rest)) s = (s, none, Except.ok true) := by
  simp [onStep, h]

/-- C3 witness: concrete no-marker call. -/
theorem claim_C3_witness :
    onStep (some [emptyInfo]) initState = (initState, none, Except.ok true) :=
  claim_C3 emptyInfo [] initState rfl

/-- C4: after any error-free sequence of notifications starting from the
initial state, the two histories hold exactly the markers' reward and length
values in arrival order, and each history's length is the number of
marker-carrying notifications. -/
theorem claim_C4 (inputs : List (Option (List Info))) (s' : CallbackState)
    (prs : List (Option (ℚ × ℚ)))
    (h : runSteps inputs initState = (s', prs, none)) :
    s'.episode_rewards = (inputs.filterMap markerOf).map Prod.fst ∧
    s'.episode_lengths = (inputs.filterMap markerOf).map Prod.snd ∧
    s'.episode_rewards.length = inputs.countP carriesMarker ∧
    s'.episode_lengths.length = inputs.countP carriesMarker := by
  obtain ⟨h1, h2, h3⟩ := runSteps_ok_spec inputs initState s' prs h
  refine ⟨?_, ?_, ?_, ?_⟩
  · simpa [initState] using h1
  · simpa [initState] using h2
  · simp [h1, initState, h3]
  · simp [h2, initState, h3]

/-- C4 witness: two markers with a no-marker call in between. -/
theorem claim_C4_witness :
    (⟨[1, 3], [2, 4]⟩ : CallbackState).episode_rewards =
      (([markerInput 1 2, plainInput, markerInput 3 4].filterMap markerOf).map
        Prod.fst) ∧
    (⟨[1, 3], [2, 4]⟩ : CallbackState).episode_lengths =
      (([markerInput 1 2, plainInput, markerInput 3 4].filterMap markerOf).map
        Prod.snd) ∧
    (⟨[1, 3], [2, 4]⟩ : CallbackState).episode_rewards.length =
      [markerInput 1 2, plainInput, markerInput 3 4].countP carriesMarker ∧
    (⟨[1, 3], [2, 4]⟩ : CallbackState).episode_lengths.length =
      [markerInput 1 2, plainInput, markerInput 3 4].countP carriesMarker :=
  claim_C4 [markerInput 1 2, plainInput, markerInput 3 4] ⟨[1, 3], [2, 4]⟩
    [none, none, none] (by decide)

/-- C5: on every well-formed input, `_on_step` returns True (it never requests
early termination), with or without a marker. -/
theorem claim_C5 (infos : Option (List Info)) (s : CallbackState)
    (h : WellFormedInfos infos) :
    (onStep infos s).2.2 = Except.ok true := by
  rcases infos with _ | (_ | ⟨info0, rest⟩)
  · rfl
  · exact absurd h (by simp [WellFormedInfos])
  · simp only [WellFormedInfos] at h
    rcases hep : info0.episode with _ | ep
    · simp [onStep, hep]
    · obtain ⟨hr, hl⟩ := h ep hep
      obtain ⟨r, hr2⟩ := Option.isSome_iff_exists.mp hr
      obtain ⟨l, hl2⟩ := Option.isSome_iff_exists.mp hl
      rw [onStep_marker _ _ _ _ _ _ hep hr2 hl2]

/-- C5 witness: a marker-carrying well-formed input returns True. -/
theorem claim_C5_witness :
    (onStep (markerInput 1 2) initState).2.2 = Except.ok true :=
  claim_C5 (markerInput 1 2) initState
    (by simp only [WellFormedInfos, markerInput]
        intro ep hep
        cases hep
        exact ⟨rfl, rfl⟩)

/-- C6: on the normal-completion path and on the KeyboardInterrupt path the
driver saves the model to the fixed path exactly once, the process exits
normally (so the save precedes process exit), and the interrupt path prints
the interruption notice. -/
theorem claim_C6 (fe : Bool) (o : LearnOutcome)
    (h : o = LearnOutcome.completes ∨ o = LearnOutcome.keyboardInterrupt) :
    (runDriver fe o).1.filter isSaveEvent = [DriverEvent.saveModel MODEL_PATH] ∧
    (runDriver fe o).2 = true ∧
    (o = LearnOutcome.keyboardInterrupt →
      DriverEvent.printInterruptNotice ∈ (runDriver fe o).1) := by
  rcases h with rfl | rfl <;> cases fe <;> simp [runDriver, isSaveEvent]

/-- C6 witness: interrupted run with an existing model file. -/
theorem claim_C6_witness :
    (runDriver true LearnOutcome.keyboardInterrupt).1.filter isSaveEvent =
      [DriverEvent.saveModel MODEL_PATH] ∧
    (runDriver true LearnOutcome.keyboardInterrupt).2 = true ∧
    (LearnOutcome.keyboardInterrupt = LearnOutcome.keyboardInterrupt →
      DriverEvent.printInterruptNotice ∈
        (runDriver true LearnOutcome.keyboardInterrupt).1) :=
  claim_C6 true LearnOutcome.keyboardInterrupt (Or.inr rfl)

/-- C7: the driver loads the model from the fixed path exactly when the file
exists and constructs a fresh PPO with the fixed hyperparameters exactly when
it does not, independently of how the run later ends. -/
theorem claim_C7 (fe : Bool) (o : LearnOutcome) :
    ((runDriver fe o).1.filter isLoadEvent =
      if fe then [DriverEvent.loadModel MODEL_PATH] else []) ∧
    ((runDriver fe o).1.filter isConstructEvent =
      if fe then [] else [DriverEvent.constructFresh freshPPOParams]) := by
  cases fe <;> cases o <;> simp [runDriver, isLoadEvent, isConstructEvent]

/-- C8: `_on_step` reads only index 0 of the infos batch: entries past index 0
never influence the resulting state, the printed output or the returned
value. -/
theorem claim_C8 (info0 : Info) (rest rest' : List Info) (s : CallbackState) :
    onStep (some (info0 :: rest)) s = onStep (some (info0 :: rest')) s := rfl

/-- C9: a marker missing its reward or length field raises before any append
(state unchanged, nothing printed), and every call — erroring or not —
preserves equality of the two histories' lengths. -/
theorem claim_C9 :
    (∀ (info0 : Info) (rest : List Info) (s : CallbackState) ep,
        info0.episode = some ep → ep.r = none ∨ ep.l = none →
        onStep (some (info0 :: rest)) s =
          (s, none, Except.error StepError.keyError)) ∧
    (∀ infos s, s.episode_rewards.length = s.episode_lengths.length →
        (onStep infos s).1.episode_rewards.length =
          (onStep infos s).1.episode_lengths.length) := by
  constructor
  · intro info0 rest s ep hep hmiss
    rcases hmiss with hr | hl
    · simp [onStep, hep, hr]
    · rcases hr2 : ep.r with _ | r
      · simp [onStep, hep, hr2]
      · simp [onStep, hep, hr2, hl]
  · intro infos s hlen
    rcases infos with _ | (_ | ⟨info0, rest⟩)
    · rw [onStep_none]
      exact hlen
    · rw [onStep_nil]
      exact hlen
    · rcases hep : info0.episode with _ | ep
      · rw [onStep_noMarker _ _ _ hep]
        exact hlen
      · rcases hr : ep.r with _ | r
        · rw [onStep_missingR _ _ _ _ hep hr]
          exact hlen
        · rcases hl : ep.l with _ | l
          · rw [onStep_missingL _ _ _ _ _ hep hr hl]
            exact hlen
          · rw [onStep_marker _ _ _ _ _ _ hep hr hl]
            simp [hlen]

/-- C9 witness: a marker with a length but no reward raises KeyError without
touching the state. -/
theorem claim_C9_witness :
    onStep (some [⟨some ⟨none, some 1⟩⟩]) initState =
      (initState, none, Except.error StepError.keyError) :=
  claim_C9.1 ⟨some ⟨none, some 1⟩⟩ [] initState ⟨none, some 1⟩ rfl (Or.inl rfl)

/-- C10: a missing `infos` key is defaulted to a singleton empty dict, so the
call is a no-op returning True; an explicitly empty `infos` list raises
IndexError. -/
theorem claim_C10 (s : CallbackState) :
    onStep none s = (s, none, Except.ok true) ∧
    onStep (some []) s = (s, none, Except.error StepError.indexError) :=
  ⟨rfl, rfl⟩
